import Mathlib

/-!
Verification of the fund-custody and bet-lifecycle core of the
self-healing-betting repository, shallowly embedded in Lean 4.

Money amounts are modelled as rationals.  JavaScript Map stores become
association lists; a Map.set on an existing key replaces, on a fresh key
appends.  Every service handler is translated as a function from state to
state paired with an Except result; JavaScript object mutation that is
visible by reference before a later throw is modelled by applying the
mutation to the state before returning the error.  Dates, logging and
event emission are dropped; uuid generation becomes explicit fresh ids.
-/

namespace Betting

/-- JavaScript helper used throughout the sources for two-decimal rounding:
Math.round(x * 100) / 100.  Math.round on nonnegative input is floor of the
value plus one half. -/
def jsRound2 (q : ℚ) : ℚ := (Int.floor (q * 100 + 1/2) : ℚ) / 100

/-- Error codes thrown by the services (the code fields of the
MoleculerClientError instances), plus validationFailed for a request the
moleculer parameter validator rejects before the handler runs. -/
inductive Err where
  | walletExists
  | walletNotFound
  | walletInactive
  | insufficientFunds
  | lockNotFound
  | lockInactive
  | minDeposit
  | maxDeposit
  | minWithdrawal
  | maxWithdrawal
  | minStake
  | maxStake
  | maxSelectionsExceeded
  | duplicateEvent
  | maxPotentialWinExceeded
  | oddsChanged
  | betNotFound
  | betAlreadySettled
  | validationFailed
  deriving DecidableEq

/-- Wallet record of wallet.service.js: balance, lockedBalance and a status
string among active, frozen, closed. -/
structure Wallet where
  userId : Nat
  currency : String
  balance : ℚ
  lockedBalance : ℚ
  status : String
  deriving DecidableEq

/-- Fund lock record created by the wallet lock action; status is one of
active, released, converted. -/
structure FundLock where
  id : Nat
  userId : Nat
  amount : ℚ
  status : String
  deriving DecidableEq

/-- Transaction audit record appended by processTransaction. -/
structure Txn where
  walletUser : Nat
  txType : String
  amount : ℚ
  referenceId : Option Nat
  deriving DecidableEq

/-- State of the wallet service: the wallets Map (keyed by userId:currency),
the locks Map (keyed by lock id, generated here as a counter) and the
transactions store (newest first, as saveTransaction unshifts). -/
structure LedgerState where
  wallets : List Wallet
  locks : List FundLock
  txns : List Txn
  nextLockId : Nat
  deriving DecidableEq

/-- getWalletByUserId(userId, currency = "USD") of wallet.service.js. -/
def getWalletByUserId (st : LedgerState) (userId : Nat) (currency : String := "USD") :
    Option Wallet :=
  st.wallets.find? (fun w => w.userId == userId && w.currency == currency)

/-- saveWallet for a wallet whose key is already present: Map.set replaces
the entry. -/
def saveWallet (st : LedgerState) (w : Wallet) : LedgerState :=
  { st with wallets :=
      st.wallets.map (fun x => if x.userId == w.userId && x.currency == w.currency then w else x) }

/-- Map.set on a fresh wallet key (used by the create action) appends. -/
def addWallet (st : LedgerState) (w : Wallet) : LedgerState :=
  { st with wallets := st.wallets ++ [w] }

/-- getLockById of wallet.service.js. -/
def getLockById (st : LedgerState) (lockId : Nat) : Option FundLock :=
  st.locks.find? (fun l => l.id == lockId)

/-- saveLock for an existing lock id: Map.set replaces. -/
def saveLock (st : LedgerState) (l : FundLock) : LedgerState :=
  { st with locks := st.locks.map (fun x => if x.id == l.id then l else x) }

/-- saveLock for a fresh lock (the lock action): Map.set appends; the fresh
uuid is modelled by the nextLockId counter. -/
def addLock (st : LedgerState) (l : FundLock) : LedgerState :=
  { st with locks := st.locks ++ [l], nextLockId := st.nextLockId + 1 }

/-- saveTransaction unshifts onto the per-wallet array; modelled as a cons
onto one global list. -/
def addTxn (st : LedgerState) (t : Txn) : LedgerState :=
  { st with txns := t :: st.txns }

/-- processTransaction of wallet.service.js: computes balanceAfter, throws
INSUFFICIENT_FUNDS when it would be negative, otherwise updates the wallet
balance and appends the transaction record. -/
def processTransaction (st : LedgerState) (w : Wallet) (txType : String) (amount : ℚ)
    (referenceId : Option Nat) : LedgerState × Except Err Txn :=
  let balanceAfter := w.balance + amount
  if balanceAfter < 0 then (st, .error .insufficientFunds)
  else
    let t : Txn := ⟨w.userId, txType, amount, referenceId⟩
    (addTxn (saveWallet st { w with balance := balanceAfter }) t, .ok t)

/-- The wallet create action: fails WALLET_EXISTS for a duplicate
(userId, currency) key, otherwise stores a fresh active wallet with zero
balances. -/
def walletCreate (st : LedgerState) (userId : Nat) (currency : String := "USD") :
    LedgerState × Except Err Wallet :=
  match getWalletByUserId st userId currency with
  | some _ => (st, .error .walletExists)
  | none =>
    let w : Wallet := ⟨userId, currency, 0, 0, "active"⟩
    (addWallet st w, .ok w)

/-- The wallet deposit action: positive amount (parameter validator), then
the min/max deposit bounds (defaults 1 and 50000), wallet must exist and be
active, then processTransaction with type deposit. -/
def walletDeposit (st : LedgerState) (userId : Nat) (amount : ℚ) :
    LedgerState × Except Err Txn :=
  if ¬ (0 < amount) then (st, .error .validationFailed)
  else if amount < 1 then (st, .error .minDeposit)
  else if amount > 50000 then (st, .error .maxDeposit)
  else
    match getWalletByUserId st userId with
    | none => (st, .error .walletNotFound)
    | some w =>
      if w.status != "active" then (st, .error .walletInactive)
      else processTransaction st w "deposit" amount none

/-- The wallet withdraw action: positive amount, min/max withdrawal bounds
(defaults 10 and 50000), wallet active, amount at most the available
balance, then processTransaction with the negated amount. -/
def walletWithdraw (st : LedgerState) (userId : Nat) (amount : ℚ) :
    LedgerState × Except Err Txn :=
  if ¬ (0 < amount) then (st, .error .validationFailed)
  else if amount < 10 then (st, .error .minWithdrawal)
  else if amount > 50000 then (st, .error .maxWithdrawal)
  else
    match getWalletByUserId st userId with
    | none => (st, .error .walletNotFound)
    | some w =>
      if w.status != "active" then (st, .error .walletInactive)
      else if amount > w.balance - w.lockedBalance then (st, .error .insufficientFunds)
      else processTransaction st w "withdrawal" (-amount) none

/-- The wallet lock action: positive amount, wallet exists and is active,
amount at most the available balance; increments lockedBalance and records
a fresh active lock, returning its id. -/
def walletLock (st : LedgerState) (userId : Nat) (amount : ℚ) :
    LedgerState × Except Err Nat :=
  if ¬ (0 < amount) then (st, .error .validationFailed)
  else
    match getWalletByUserId st userId with
    | none => (st, .error .walletNotFound)
    | some w =>
      if w.status != "active" then (st, .error .walletInactive)
      else if amount > w.balance - w.lockedBalance then (st, .error .insufficientFunds)
      else
        let lockId := st.nextLockId
        let st1 := saveWallet st { w with lockedBalance := w.lockedBalance + amount }
        let st2 := addLock st1 ⟨lockId, userId, amount, "active"⟩
        (st2, .ok lockId)

/-- The wallet unlock action: the lock must exist and be active, its wallet
must exist; lockedBalance is decremented (clamped at zero, as the source
uses Math.max) and the lock becomes released.  No wallet status check
appears in the source. -/
def walletUnlock (st : LedgerState) (lockId : Nat) :
    LedgerState × Except Err ℚ :=
  match getLockById st lockId with
  | none => (st, .error .lockNotFound)
  | some l =>
    if l.status != "active" then (st, .error .lockInactive)
    else
      match getWalletByUserId st l.userId with
      | none => (st, .error .walletNotFound)
      | some w =>
        let st1 := saveWallet st { w with lockedBalance := max 0 (w.lockedBalance - l.amount) }
        let st2 := saveLock st1 { l with status := "released" }
        (st2, .ok l.amount)

/-- The wallet debit action: positive amount and existing wallet; when a
lockId is given and that lock is active, the lock is first converted
(lockedBalance decremented with a Math.max clamp, lock status set to
converted) — this mutation is visible by reference and persists even when
the following balance check throws; then the amount must not exceed the raw
balance (not the available balance), and processTransaction debits it.
No wallet status check appears in the source. -/
def walletDebit (st : LedgerState) (userId : Nat) (amount : ℚ) (lockId : Option Nat)
    (referenceId : Option Nat := none) (referenceType : String := "bet_stake") :
    LedgerState × Except Err Txn :=
  if ¬ (0 < amount) then (st, .error .validationFailed)
  else
    match getWalletByUserId st userId with
    | none => (st, .error .walletNotFound)
    | some w =>
      let converted :=
        match lockId with
        | some lid =>
          match getLockById st lid with
          | some l =>
            if l.status == "active" then
              let w1 := { w with lockedBalance := max 0 (w.lockedBalance - l.amount) }
              some (saveLock (saveWallet st w1) { l with status := "converted" }, w1)
            else none
          | none => none
        | none => none
      let st1 := (converted.map (fun p => p.1)).getD st
      let w1 := (converted.map (fun p => p.2)).getD w
      if amount > w1.balance then (st1, .error .insufficientFunds)
      else processTransaction st1 w1 referenceType (-amount) referenceId

/-- The wallet credit action: positive amount, referenceType from the
enum of the parameter validator, wallet exists; then processTransaction.
No wallet status check appears in the source. -/
def walletCredit (st : LedgerState) (userId : Nat) (amount : ℚ)
    (referenceId : Option Nat) (referenceType : String) :
    LedgerState × Except Err Txn :=
  if ¬ (0 < amount) then (st, .error .validationFailed)
  else if ¬ (referenceType ∈ ["bet_win", "bet_refund", "bonus", "transfer_in"]) then
    (st, .error .validationFailed)
  else
    match getWalletByUserId st userId with
    | none => (st, .error .walletNotFound)
    | some w => processTransaction st w referenceType amount referenceId

/-- One WalletLedger request, for reasoning about arbitrary operation
sequences. -/
inductive WalletOp where
  | create (userId : Nat) (currency : String)
  | deposit (userId : Nat) (amount : ℚ)
  | withdraw (userId : Nat) (amount : ℚ)
  | lock (userId : Nat) (amount : ℚ)
  | unlock (lockId : Nat)
  | debit (userId : Nat) (amount : ℚ) (lockId : Option Nat)
  | credit (userId : Nat) (amount : ℚ) (referenceType : String)

/-- The state reached after one WalletLedger request (failed requests leave
the state they produced, which for debit includes a lock conversion that
happened before the throw). -/
def walletStep (st : LedgerState) : WalletOp → LedgerState
  | .create u c => (walletCreate st u c).1
  | .deposit u a => (walletDeposit st u a).1
  | .withdraw u a => (walletWithdraw st u a).1
  | .lock u a => (walletLock st u a).1
  | .unlock lid => (walletUnlock st lid).1
  | .debit u a lid => (walletDebit st u a lid).1
  | .credit u a ty => (walletCredit st u a none ty).1

/-- The state after a sequence of WalletLedger requests. -/
def runOps (st : LedgerState) (ops : List WalletOp) : LedgerState :=
  ops.foldl walletStep st

/-- The empty initial state of the wallet service. -/
def initLedger : LedgerState := ⟨[], [], [], 0⟩

/-- The spec's wallet invariant: for all wallets,
0 ≤ lockedBalance ≤ balance. -/
def WalletInv (st : LedgerState) : Prop :=
  ∀ w ∈ st.wallets, 0 ≤ w.lockedBalance ∧ w.lockedBalance ≤ w.balance

instance (st : LedgerState) : Decidable (WalletInv st) := by
  unfold WalletInv; infer_instance

/-- Auxiliary invariant carried through the induction: every recorded fund
lock has a nonnegative amount (the lock action only stores positive
amounts). -/
def LockAmountsInv (st : LedgerState) : Prop :=
  ∀ l ∈ st.locks, 0 ≤ l.amount

instance (st : LedgerState) : Decidable (LockAmountsInv st) := by
  unfold LockAmountsInv; infer_instance

/-- The two ledger invariants together. -/
def LedgerInv (st : LedgerState) : Prop := WalletInv st ∧ LockAmountsInv st

instance (st : LedgerState) : Decidable (LedgerInv st) := by
  unfold LedgerInv; infer_instance

/-- The amount by which a debit with the given lockId argument will lower
lockedBalance before its balance check (the amount of the named lock when
that lock is active, zero otherwise). -/
def lockReleaseAmount (st : LedgerState) (lockId : Option Nat) : ℚ :=
  match lockId with
  | some lid =>
    match getLockById st lid with
    | some l => if l.status == "active" then l.amount else 0
    | none => 0
  | none => 0

/-- A debit request is bounded when its amount does not exceed the balance
that will remain available to cover the other locks, namely balance minus
the lockedBalance left after the lock conversion.  Every other request is
bounded by definition.  The source checks a debit only against the raw
balance, which is weaker. -/
def debitSafeB (st : LedgerState) (op : WalletOp) : Bool :=
  match op with
  | .debit u a lid =>
    match getWalletByUserId st u with
    | some w => decide (a ≤ w.balance - max 0 (w.lockedBalance - lockReleaseAmount st lid))
    | none => true
  | _ => true

/-- Every debit of the sequence is bounded in the state where it runs. -/
def safeTraceB : LedgerState → List WalletOp → Bool
  | _, [] => true
  | st, op :: ops => debitSafeB st op && safeTraceB (walletStep st op) ops

/-! ## Odds oracle (odds service oddsStore and validateOdds) -/

/-- One entry of the odds service oddsStore: current odds and a status
string (active, suspended, ...). -/
structure OddsData where
  odds : ℚ
  status : String
  deriving DecidableEq

/-- The record validateOdds returns; the source returns objects with
different field sets per branch, modelled with optional fields. -/
structure OddsValidation where
  valid : Bool
  reason : Option String
  expectedOdds : Option ℚ
  currentOdds : Option ℚ
  difference : Option String
  deriving DecidableEq

/-- oddsStore.get(selectionId). -/
def lookupOdds (os : List (Nat × OddsData)) (selectionId : Nat) : Option OddsData :=
  (os.find? (fun p => p.1 == selectionId)).map (fun p => p.2)

/-- Number.prototype.toFixed(2) for the nonnegative rationals this model
feeds it: round half away from zero to two decimals and render with a
two-digit fraction. -/
def toFixed2 (q : ℚ) : String :=
  let c : Int := Int.floor (q * 100 + 1/2)
  let frac := (c % 100).toNat
  toString (c / 100) ++ "." ++ (if frac < 10 then "0" else "") ++ toString frac

/-- validateOdds of base.provider.js (action odds.validate): invalid when the
selection is missing or not active; otherwise invalid with reason
"Odds have changed" and a formatted percentage difference when the relative
difference exceeds the tolerance, valid with the current odds otherwise. -/
def validateOdds (os : List (Nat × OddsData)) (selectionId : Nat) (expectedOdds : ℚ)
    (tolerance : ℚ) : OddsValidation :=
  match lookupOdds os selectionId with
  | none => ⟨false, some "Selection not found", none, none, none⟩
  | some oddsData =>
    if oddsData.status != "active" then
      ⟨false, some "Odds are suspended", none, none, none⟩
    else
      let currentOdds := oddsData.odds
      let difference := |currentOdds - expectedOdds| / expectedOdds
      if difference > tolerance then
        ⟨false, some "Odds have changed", some expectedOdds, some currentOdds,
          some (toFixed2 (difference * 100) ++ "%")⟩
      else
        ⟨true, none, none, some currentOdds, none⟩

/-! ## Bet book (bet service) -/

/-- One selection of a bet; status starts pending and is later written by
the settlement cascade (selection.settled events carry the raw result
strings winner, loser, void, push) or by voidMarket (void). -/
structure BetSelection where
  selectionId : Nat
  eventId : Nat
  marketId : Nat
  oddsAtPlacement : ℚ
  status : String
  deriving DecidableEq

/-- Bet record of the bet service. -/
structure Bet where
  id : Nat
  userId : Nat
  betType : String
  stake : ℚ
  totalOdds : ℚ
  potentialWin : ℚ
  status : String
  settledAmount : Option ℚ
  cashoutAmount : Option ℚ
  lockId : Nat
  selections : List BetSelection
  deriving DecidableEq

/-- Combined state of the bet service store, the wallet service and the
event service market statuses. -/
structure SysState where
  ledger : LedgerState
  bets : List Bet
  marketStatus : List (Nat × String)
  deriving DecidableEq

/-- getBetById of the bet service. -/
def getBetById (bets : List Bet) (betId : Nat) : Option Bet :=
  bets.find? (fun b => b.id == betId)

/-- saveBet: Map.set replaces an existing bet id and appends a fresh one. -/
def saveBetList (bets : List Bet) (b : Bet) : List Bet :=
  if bets.any (fun x => x.id == b.id) then bets.map (fun x => if x.id == b.id then b else x)
  else bets ++ [b]

/-- getBetsBySelection(selectionId, status): the bets of the selection index
that currently carry the given status. -/
def getBetsBySelection (st : SysState) (selectionId : Nat) (status : String) : List Bet :=
  st.bets.filter (fun b => b.status == status && b.selections.any (fun s => s.selectionId == selectionId))

/-- The JavaScript expression settledAmount || bet.potentialWin of the
settle action: an absent or zero (falsy) settledAmount falls back to the
potential win. -/
def wonAmount (bet : Bet) (settledAmount : Option ℚ) : ℚ :=
  match settledAmount with
  | some a => if a = 0 then bet.potentialWin else a
  | none => bet.potentialWin

/-- The bet settle action: result must be one of won, lost, void, partial
(the parameter enum); the bet must exist and still be open, else
BET_ALREADY_SETTLED.  The status written is won for won, lost for lost and
void for anything else.  won credits settledAmount when that argument is
truthy in JavaScript (present and nonzero), else potentialWin, as bet_win;
void credits the stake as bet_refund; every other result (lost, partial)
records settledAmount zero and credits nothing.  The bet record mutations
happen before the wallet call and are visible by reference even when the
credit fails. -/
def betSettle (st : SysState) (betId : Nat) (result : String) (settledAmount : Option ℚ) :
    SysState × Except Err Bet :=
  if ¬ (result ∈ ["won", "lost", "void", "partial"]) then (st, .error .validationFailed)
  else
    match getBetById st.bets betId with
    | none => (st, .error .betNotFound)
    | some bet =>
      if bet.status != "open" then (st, .error .betAlreadySettled)
      else
        let newStatus := if result == "won" then "won" else if result == "lost" then "lost" else "void"
        if result == "won" then
          let amt := wonAmount bet settledAmount
          let bet1 := { bet with status := newStatus, settledAmount := some amt }
          let c := walletCredit st.ledger bet.userId amt (some bet.id) "bet_win"
          ({ st with ledger := c.1, bets := saveBetList st.bets bet1 },
            match c.2 with
            | .error e => .error e
            | .ok _ => .ok bet1)
        else if result == "void" then
          let bet1 := { bet with status := newStatus, settledAmount := some bet.stake }
          let c := walletCredit st.ledger bet.userId bet.stake (some bet.id) "bet_refund"
          ({ st with ledger := c.1, bets := saveBetList st.bets bet1 },
            match c.2 with
            | .error e => .error e
            | .ok _ => .ok bet1)
        else
          let bet1 := { bet with status := newStatus, settledAmount := some 0 }
          ({ st with bets := saveBetList st.bets bet1 }, .ok bet1)

/-- Product of oddsAtPlacement over a selection list, as the sources fold
it with reduce starting from 1. -/
def prodOdds (sels : List BetSelection) : ℚ :=
  sels.foldl (fun acc s => acc * s.oddsAtPlacement) 1

/-- calculateCashoutValue of the bet service: 0 unless the bet is open; 0
when a selection has status lost (the literal string) or none is pending;
otherwise the stake times the product of the odds of the selections whose
status is the literal string won, times 0.9, rounded to two decimals. -/
def calculateCashoutValue (bet : Bet) : ℚ :=
  if bet.status != "open" then 0
  else
    let pending := (bet.selections.filter (fun s => s.status == "pending")).length
    let lost := (bet.selections.filter (fun s => s.status == "lost")).length
    if lost > 0 then 0
    else if pending = 0 then 0
    else
      let winnerOdds := prodOdds (bet.selections.filter (fun s => s.status == "won"))
      let progressValue := bet.stake * winnerOdds
      jsRound2 (progressValue * (9/10))

/-- The cash-out value as the specification words it, with the won set W
and the lost test read over the statuses the settlement cascade actually
writes (winner and loser): 0 when the bet is not open, when any selection
lost, or when none is pending; otherwise round(stake × Π odds over W × 0.9, 2). -/
def specCashoutValue (bet : Bet) : ℚ :=
  if bet.status != "open" then 0
  else if bet.selections.any (fun s => s.status == "lost" || s.status == "loser") then 0
  else if (bet.selections.filter (fun s => s.status == "pending")).length = 0 then 0
  else
    jsRound2 (bet.stake *
      prodOdds (bet.selections.filter (fun s => s.status == "won" || s.status == "winner")) * (9/10))

/-- The selections.find mutation of handleSelectionSettled: only the first
selection with the given selectionId gets the new status. -/
def setFirstSelectionStatus : List BetSelection → Nat → String → List BetSelection
  | [], _, _ => []
  | s :: rest, selId, result =>
    if s.selectionId == selId then { s with status := result } :: rest
    else s :: setFirstSelectionStatus rest selId result

/-- The body of the handleSelectionSettled loop for one bet: write the
result string onto the matching selection, then settle the bet lost when
any selection has status lost or loser, or settle it won (void when every
selection is void) when none is pending, recomputing the amount from the
non-void selections. -/
def cascadeStep (st : SysState) (selectionId : Nat) (result : String) (betId : Nat) : SysState :=
  match getBetById st.bets betId with
  | none => st
  | some bet =>
    let bet1 := { bet with selections := setFirstSelectionStatus bet.selections selectionId result }
    let st1 := { st with bets := saveBetList st.bets bet1 }
    let pending := (bet1.selections.filter (fun s => s.status == "pending")).length
    let lost := (bet1.selections.filter (fun s => s.status == "lost" || s.status == "loser")).length
    let voided := (bet1.selections.filter (fun s => s.status == "void")).length
    if lost > 0 then (betSettle st1 bet.id "lost" none).1
    else if pending = 0 then
      let activeSelections := bet1.selections.filter (fun s => s.status != "void")
      let finalOdds := prodOdds activeSelections
      let amt := bet1.stake * finalOdds
      let res := if voided > 0 && activeSelections.length == 0 then "void" else "won"
      (betSettle st1 bet.id res (some amt)).1
    else st1

/-- handleSelectionSettled of the bet service, the consumer of the
selection.settled events the settlement pipeline emits (event.settleSelection
forwards its result string winner, loser, void or push verbatim): the loop
over the open bets that reference the selection. -/
def handleSelectionSettled (st : SysState) (selectionId : Nat) (result : String) : SysState :=
  let betIds := (getBetsBySelection st selectionId "open").map (fun b => b.id)
  betIds.foldl (fun s bid => cascadeStep s selectionId result bid) st

/-! ## Settlement service voidMarket -/

/-- getBetsForMarket of settlement.service.js.  The source reads: This would
query bets that have selections from this market.  For now, return empty
array - bet service handles this via events.  It returns the empty list for
every input. -/
def getBetsForMarket (_st : SysState) (_marketId : Nat) : List Bet := []

/-- event.updateMarketStatus: writes the status onto the market record when
it exists. -/
def updateMarketStatusL (ms : List (Nat × String)) (marketId : Nat) (status : String) :
    List (Nat × String) :=
  ms.map (fun p => if p.1 == marketId then (p.1, status) else p)

/-- The result object the voidMarket action returns. -/
structure VoidResult where
  marketId : Nat
  reason : String
  betsProcessed : Nat
  refundedCount : Nat
  failedBetIds : List Nat
  deriving DecidableEq

/-- The body of the voidMarket loop for one bet: mark the selections of the
market void, then fully void the bet (counting a refund) when every
selection is void, or resettle it won over the remaining won or winner
selections when none is pending; a settle error is collected, with the
selection mutations kept. -/
def voidMarketStep (marketId : Nat) (acc : SysState × Nat × List Nat) (betId : Nat) :
    SysState × Nat × List Nat :=
  let st := acc.1
  let refunded := acc.2.1
  let errs := acc.2.2
  match getBetById st.bets betId with
  | none => (st, refunded, errs)
  | some bet =>
    let voidedSels :=
      bet.selections.map (fun s => if s.marketId == marketId then { s with status := "void" } else s)
    let bet1 := { bet with selections := voidedSels }
    let st1 := { st with bets := saveBetList st.bets bet1 }
    let pendingCount := (bet1.selections.filter (fun s => s.status == "pending")).length
    let voidedCount := (bet1.selections.filter (fun s => s.status == "void")).length
    if voidedCount = bet1.selections.length then
      let r := betSettle st1 bet.id "void" none
      match r.2 with
      | .ok _ => (r.1, refunded + 1, errs)
      | .error _ => (r.1, refunded, errs ++ [bet.id])
    else if pendingCount = 0 then
      let activeSelections := bet1.selections.filter (fun s => s.status == "won" || s.status == "winner")
      if activeSelections.length > 0 then
        let newOdds := prodOdds activeSelections
        let r := betSettle st1 bet.id "won" (some (bet1.stake * newOdds))
        match r.2 with
        | .ok _ => (r.1, refunded, errs)
        | .error _ => (r.1, refunded, errs ++ [bet.id])
      else (st1, refunded, errs)
    else (st1, refunded, errs)

/-- The voidMarket action of settlement.service.js: iterates the bets
getBetsForMarket returns, then marks the market voided. -/
def voidMarket (st : SysState) (marketId : Nat) (reason : String) : SysState × VoidResult :=
  let bets := getBetsForMarket st marketId
  let folded := bets.foldl (fun acc b => voidMarketStep marketId acc b.id) (st, 0, [])
  let st2 := { folded.1 with marketStatus := updateMarketStatusL folded.1.marketStatus marketId "voided" }
  (st2, ⟨marketId, reason, bets.length, folded.2.1, folded.2.2⟩)

/-! ## Bet placement (the three-step saga) -/

/-- One requested selection of an accumulator. -/
structure AccSelection where
  eventId : Nat
  marketId : Nat
  selectionId : Nat
  odds : ℚ
  deriving DecidableEq

/-- The odds.validate loop of placeAccumulator: the first invalid selection
aborts with ODDS_CHANGED, otherwise every selection is paired with its
validated current odds. -/
def validateAllOdds (os : List (Nat × OddsData)) : List AccSelection →
    Except Err (List (AccSelection × ℚ))
  | [] => .ok []
  | s :: rest =>
    let v := validateOdds os s.selectionId s.odds (1/20)
    if v.valid then
      match validateAllOdds os rest with
      | .ok tail => .ok ((s, v.currentOdds.getD 0) :: tail)
      | .error e => .error e
    else .error .oddsChanged

/-- The bet place action (single bet): stake bounds, odds validation with
tolerance 0.05, potential win cap, then Lock, then Debit converting the
lock; when the debit fails the handler calls unlock and rethrows the
original error, with a rejection of the unlock call itself replacing it.
potentialWin is stake times the validated current odds with no rounding.
The interfere argument stands for the wallet operations of concurrently
running requests, applied between the Lock and Debit awaits; the sequential
behaviour is interfere = id.  The fresh bet uuid is passed as betId. -/
def place (os : List (Nat × OddsData)) (st : SysState) (userId eventId marketId selectionId : Nat)
    (odds stake : ℚ) (betId : Nat) (interfere : LedgerState → LedgerState) :
    SysState × Except Err Bet :=
  if ¬ (0 < odds ∧ 0 < stake) then (st, .error .validationFailed)
  else if stake < 1/100 then (st, .error .minStake)
  else if stake > 100000 then (st, .error .maxStake)
  else
    let v := validateOdds os selectionId odds (1/20)
    if ¬ v.valid then (st, .error .oddsChanged)
    else
      let currentOdds := v.currentOdds.getD 0
      let potentialWin := stake * currentOdds
      if potentialWin > 500000 then (st, .error .maxPotentialWinExceeded)
      else
        let lr := walletLock st.ledger userId stake
        match lr.2 with
        | .error _ => ({ st with ledger := lr.1 }, .error .insufficientFunds)
        | .ok lockId =>
          let bet : Bet := ⟨betId, userId, "single", stake, currentOdds, potentialWin, "open",
            none, none, lockId, [⟨selectionId, eventId, marketId, currentOdds, "pending"⟩]⟩
          let led2 := interfere lr.1
          let dr := walletDebit led2 userId stake (some lockId) (some betId) "bet_stake"
          match dr.2 with
          | .error e =>
            let ur := walletUnlock dr.1 lockId
            match ur.2 with
            | .error e2 => ({ st with ledger := ur.1 }, .error e2)
            | .ok _ => ({ st with ledger := ur.1 }, .error e)
          | .ok _ => ({ st with ledger := dr.1, bets := saveBetList st.bets bet }, .ok bet)

/-- The bet placeAccumulator action: at least two selections with positive
odds (parameter validator), the selection-count cap, the duplicate-event
check (Set size against array length), stake bounds, the odds-validation
loop, combined odds and potential win both rounded to two decimals, the
potential-win cap, then the same Lock, Debit, compensation sequence as the
single place. -/
def placeAccumulator (os : List (Nat × OddsData)) (st : SysState) (userId : Nat)
    (selections : List AccSelection) (stake : ℚ) (betId : Nat)
    (interfere : LedgerState → LedgerState) : SysState × Except Err Bet :=
  if ¬ (0 < stake ∧ 2 ≤ selections.length ∧ selections.all (fun s => decide (0 < s.odds))) then
    (st, .error .validationFailed)
  else if selections.length > 20 then (st, .error .maxSelectionsExceeded)
  else if (selections.map (fun s => s.eventId)).dedup.length ≠ selections.length then
    (st, .error .duplicateEvent)
  else if stake < 1/100 then (st, .error .minStake)
  else if stake > 100000 then (st, .error .maxStake)
  else
    match validateAllOdds os selections with
    | .error e => (st, .error e)
    | .ok validated =>
      let combinedOdds := jsRound2 (validated.foldl (fun acc p => acc * p.2) 1)
      let potentialWin := jsRound2 (stake * combinedOdds)
      if potentialWin > 500000 then (st, .error .maxPotentialWinExceeded)
      else
        let lr := walletLock st.ledger userId stake
        match lr.2 with
        | .error _ => ({ st with ledger := lr.1 }, .error .insufficientFunds)
        | .ok lockId =>
          let bet : Bet := ⟨betId, userId, "accumulator", stake, combinedOdds, potentialWin,
            "open", none, none, lockId,
            validated.map (fun p => ⟨p.1.selectionId, p.1.eventId, p.1.marketId, p.2, "pending"⟩)⟩
          let led2 := interfere lr.1
          let dr := walletDebit led2 userId stake (some lockId) (some betId) "bet_stake"
          match dr.2 with
          | .error e =>
            let ur := walletUnlock dr.1 lockId
            match ur.2 with
            | .error e2 => ({ st with ledger := ur.1 }, .error e2)
            | .ok _ => ({ st with ledger := ur.1 }, .error e)
          | .ok _ => ({ st with ledger := dr.1, bets := saveBetList st.bets bet }, .ok bet)

/-! ## Observation helpers and concrete states for the witnesses -/

/-- Balance of a user wallet, when it exists. -/
def walletBalance (st : LedgerState) (userId : Nat) : Option ℚ :=
  (getWalletByUserId st userId).map (fun w => w.balance)

/-- Number of bet_win transactions recorded for a bet id. -/
def betWinCredits (st : LedgerState) (betId : Nat) : Nat :=
  (st.txns.filter (fun t => t.txType == "bet_win" && t.referenceId == some betId)).length

/-- Number of bet_refund transactions recorded for a bet id. -/
def betRefundCredits (st : LedgerState) (betId : Nat) : Nat :=
  (st.txns.filter (fun t => t.txType == "bet_refund" && t.referenceId == some betId)).length

/-- Request sequence breaking the wallet invariant: fund 100, hold locks of
10 and 90, then debit 100 converting only the 10 lock.  Every request
succeeds, yet the final balance is 0 with 90 still locked. -/
def c1BreakOps : List WalletOp :=
  [WalletOp.create 1 "USD", WalletOp.deposit 1 100, WalletOp.lock 1 10,
    WalletOp.lock 1 90, WalletOp.debit 1 100 (some 0)]

/-- The lock and debit round trip of the spec, as a bounded sequence. -/
def c1SafeOps : List WalletOp :=
  [WalletOp.create 1 "USD", WalletOp.deposit 1 100, WalletOp.lock 1 50,
    WalletOp.debit 1 50 (some 0)]

/-- A ledger holding one active wallet with the given balance. -/
def oneWalletLedger (balance : ℚ) : LedgerState :=
  ⟨[⟨1, "USD", balance, 0, "active"⟩], [], [], 0⟩

/-- A ledger holding one frozen wallet with balance 100, one active lock of
40 on it, for the status-check counterexample. -/
def frozenLedger : LedgerState :=
  ⟨[⟨1, "USD", 100, 40, "frozen"⟩], [⟨0, 1, 40, "active"⟩], [], 1⟩

/-- Odds store with one active selection quoted at 3.33, for the
single-bet rounding counterexample. -/
def oddsStore333 : List (Nat × OddsData) := [(11, ⟨333/100, "active"⟩)]

/-- Odds store with one active selection quoted at 2.0. -/
def oddsStore2 : List (Nat × OddsData) := [(11, ⟨2, "active"⟩)]

/-- System state with one funded wallet and no bets. -/
def emptyBetsState (balance : ℚ) : SysState := ⟨oneWalletLedger balance, [], []⟩

/-- The concurrent wallet activity of the C6 scenario: a plain debit of 50
with no lock, issued by another request between the saga Lock and Debit. -/
def drainInterfere (led : LedgerState) : LedgerState :=
  (walletDebit led 1 50 none none "bet_stake").1

/-- An open single bet: user 1, stake 10, odds 2, potential win 20. -/
def demoBet : Bet :=
  ⟨5, 1, "single", 10, 2, 20, "open", none, none, 0, [⟨11, 100, 200, 2, "pending"⟩]⟩

/-- System state holding demoBet and a zero-balance active wallet for its
user. -/
def demoSys : SysState := ⟨oneWalletLedger 0, [demoBet], []⟩

/-- An open two-leg accumulator with legs at odds 2 and 3, both pending. -/
def accBet : Bet :=
  ⟨7, 1, "accumulator", 10, 6, 60, "open", none, none, 0,
    [⟨11, 100, 200, 2, "pending"⟩, ⟨12, 101, 201, 3, "pending"⟩]⟩

/-- System state holding accBet and a zero-balance active wallet. -/
def accSys : SysState := ⟨oneWalletLedger 0, [accBet], []⟩

/-- accBet after the settlement cascade resolves its first leg winner. -/
def accBetAfterWinner : Bet :=
  ⟨7, 1, "accumulator", 10, 6, 60, "open", none, none, 0,
    [⟨11, 100, 200, 2, "winner"⟩, ⟨12, 101, 201, 3, "pending"⟩]⟩

/-- Odds store where selection 1 is quoted at 2.60 and active. -/
def oddsQuote260 : List (Nat × OddsData) := [(1, ⟨13/5, "active"⟩)]

/-- Odds store where selection 1 is quoted at 2.70 and active. -/
def oddsQuote270 : List (Nat × OddsData) := [(1, ⟨27/10, "active"⟩)]

/-- Odds store where selection 1 is quoted at 2.50 but suspended. -/
def oddsSuspended : List (Nat × OddsData) := [(1, ⟨5/2, "suspended"⟩)]

/-- The bet the single place call of the C3 counterexample creates: stake
0.10 at validated odds 3.33, potential win 0.333 with no rounding. -/
def c3Bet : Bet :=
  ⟨9, 1, "single", 1/10, 333/100, 333/1000, "open", none, none, 0,
    [⟨11, 100, 200, 333/100, "pending"⟩]⟩

/-! ## Helper lemmas about the keyed stores -/

theorem getWalletByUserId_mem {st : LedgerState} {u : Nat} {c : String} {w : Wallet}
    (h : getWalletByUserId st u c = some w) : w ∈ st.wallets :=
  List.mem_of_find?_eq_some h

theorem mem_of_saveWallet {st : LedgerState} {w x : Wallet}
    (hx : x ∈ (saveWallet st w).wallets) : x = w ∨ x ∈ st.wallets := by
  simp only [saveWallet, List.mem_map] at hx
  obtain ⟨y, hy, hxy⟩ := hx
  by_cases hc : (y.userId == w.userId && y.currency == w.currency) = true
  · rw [if_pos hc] at hxy
    exact Or.inl hxy.symm
  · rw [if_neg hc] at hxy
    exact Or.inr (hxy ▸ hy)

theorem getLockById_mem {st : LedgerState} {lid : Nat} {l : FundLock}
    (h : getLockById st lid = some l) : l ∈ st.locks :=
  List.mem_of_find?_eq_some h

theorem mem_of_saveLock {st : LedgerState} {l x : FundLock}
    (hx : x ∈ (saveLock st l).locks) : x = l ∨ x ∈ st.locks := by
  simp only [saveLock, List.mem_map] at hx
  obtain ⟨y, hy, hxy⟩ := hx
  by_cases hc : (y.id == l.id) = true
  · rw [if_pos hc] at hxy
    exact Or.inl hxy.symm
  · rw [if_neg hc] at hxy
    exact Or.inr (hxy ▸ hy)

theorem walletInv_of_eq {st st' : LedgerState} (h : st'.wallets = st.wallets)
    (hinv : WalletInv st) : WalletInv st' := by
  intro x hx
  exact hinv x (h ▸ hx)

theorem walletInv_saveWallet {st : LedgerState} {w : Wallet}
    (hinv : WalletInv st) (h0 : 0 ≤ w.lockedBalance) (h1 : w.lockedBalance ≤ w.balance) :
    WalletInv (saveWallet st w) := by
  intro x hx
  rcases mem_of_saveWallet hx with rfl | hx
  · exact ⟨h0, h1⟩
  · exact hinv x hx

theorem ledgerInv_saveWallet {st : LedgerState} {w : Wallet}
    (h : LedgerInv st) (h0 : 0 ≤ w.lockedBalance) (h1 : w.lockedBalance ≤ w.balance) :
    LedgerInv (saveWallet st w) :=
  ⟨walletInv_saveWallet h.1 h0 h1, fun x hx => h.2 x hx⟩

theorem ledgerInv_saveLock {st : LedgerState} {l : FundLock}
    (h : LedgerInv st) (ha : 0 ≤ l.amount) : LedgerInv (saveLock st l) := by
  refine ⟨walletInv_of_eq rfl h.1, ?_⟩
  intro x hx
  rcases mem_of_saveLock hx with rfl | hx
  · exact ha
  · exact h.2 x hx

theorem ledgerInv_processTransaction {st : LedgerState} {w : Wallet} {ty : String} {a : ℚ}
    {rid : Option Nat} (h : LedgerInv st) (h0 : 0 ≤ w.lockedBalance)
    (h1 : w.lockedBalance ≤ w.balance + a) :
    LedgerInv (processTransaction st w ty a rid).1 := by
  unfold processTransaction
  by_cases hb : w.balance + a < 0
  · rw [if_pos hb]
    exact h
  · rw [if_neg hb]
    exact ⟨walletInv_of_eq rfl (walletInv_saveWallet h.1 h0 h1), fun x hx => h.2 x hx⟩

/-! ## Preservation of the ledger invariants, operation by operation -/

theorem ledgerInv_create (st : LedgerState) (u : Nat) (c : String) (h : LedgerInv st) :
    LedgerInv (walletCreate st u c).1 := by
  unfold walletCreate
  cases hw : getWalletByUserId st u c with
  | some w => exact h
  | none =>
    refine ⟨?_, fun x hx => h.2 x hx⟩
    intro x hx
    simp only [addWallet, List.mem_append, List.mem_singleton] at hx
    rcases hx with hx | rfl
    · exact h.1 x hx
    · exact ⟨le_refl 0, le_refl 0⟩

theorem ledgerInv_deposit (st : LedgerState) (u : Nat) (a : ℚ) (h : LedgerInv st) :
    LedgerInv (walletDeposit st u a).1 := by
  unfold walletDeposit
  by_cases h1 : ¬ (0 < a)
  · rw [if_pos h1]; exact h
  rw [if_neg h1]
  push_neg at h1
  by_cases h2 : a < 1
  · rw [if_pos h2]; exact h
  rw [if_neg h2]
  by_cases h3 : a > 50000
  · rw [if_pos h3]; exact h
  rw [if_neg h3]
  cases hw : getWalletByUserId st u with
  | none => exact h
  | some w =>
    dsimp only
    by_cases h4 : (w.status != "active") = true
    · rw [if_pos h4]; exact h
    · rw [if_neg h4]
      have hi := h.1 w (getWalletByUserId_mem hw)
      exact ledgerInv_processTransaction h hi.1 (by linarith [hi.2])

theorem ledgerInv_withdraw (st : LedgerState) (u : Nat) (a : ℚ) (h : LedgerInv st) :
    LedgerInv (walletWithdraw st u a).1 := by
  unfold walletWithdraw
  by_cases h1 : ¬ (0 < a)
  · rw [if_pos h1]; exact h
  rw [if_neg h1]
  push_neg at h1
  by_cases h2 : a < 10
  · rw [if_pos h2]; exact h
  rw [if_neg h2]
  by_cases h3 : a > 50000
  · rw [if_pos h3]; exact h
  rw [if_neg h3]
  cases hw : getWalletByUserId st u with
  | none => exact h
  | some w =>
    dsimp only
    by_cases h4 : (w.status != "active") = true
    · rw [if_pos h4]; exact h
    · rw [if_neg h4]
      by_cases h5 : a > w.balance - w.lockedBalance
      · rw [if_pos h5]; exact h
      · rw [if_neg h5]
        have hi := h.1 w (getWalletByUserId_mem hw)
        exact ledgerInv_processTransaction h hi.1 (by push_neg at h5; linarith)

theorem ledgerInv_lock (st : LedgerState) (u : Nat) (a : ℚ) (h : LedgerInv st) :
    LedgerInv (walletLock st u a).1 := by
  unfold walletLock
  by_cases h1 : ¬ (0 < a)
  · rw [if_pos h1]; exact h
  rw [if_neg h1]
  push_neg at h1
  cases hw : getWalletByUserId st u with
  | none => exact h
  | some w =>
    dsimp only
    by_cases h4 : (w.status != "active") = true
    · rw [if_pos h4]; exact h
    · rw [if_neg h4]
      by_cases h5 : a > w.balance - w.lockedBalance
      · rw [if_pos h5]; exact h
      · rw [if_neg h5]
        have hi := h.1 w (getWalletByUserId_mem hw)
        push_neg at h5
        have hsw : LedgerInv (saveWallet st { w with lockedBalance := w.lockedBalance + a }) :=
          ledgerInv_saveWallet h (by dsimp only; linarith [hi.1]) (by dsimp only; linarith)
        refine ⟨walletInv_of_eq rfl hsw.1, ?_⟩
        intro x hx
        simp only [addLock, List.mem_append, List.mem_singleton] at hx
        rcases hx with hx | rfl
        · exact hsw.2 x hx
        · dsimp only
          linarith

theorem ledgerInv_unlock (st : LedgerState) (lid : Nat) (h : LedgerInv st) :
    LedgerInv (walletUnlock st lid).1 := by
  unfold walletUnlock
  cases hl : getLockById st lid with
  | none => exact h
  | some l =>
    dsimp only
    by_cases h1 : (l.status != "active") = true
    · rw [if_pos h1]; exact h
    · rw [if_neg h1]
      cases hw : getWalletByUserId st l.userId with
      | none => exact h
      | some w =>
        dsimp only
        have hi := h.1 w (getWalletByUserId_mem hw)
        have hla := h.2 l (getLockById_mem hl)
        refine ledgerInv_saveLock ?_ (by dsimp only; exact hla)
        exact ledgerInv_saveWallet h (by dsimp only; exact le_max_left 0 _)
          (by dsimp only; exact max_le (by linarith [hi.1, hi.2]) (by linarith [hi.2]))

theorem ledgerInv_credit (st : LedgerState) (u : Nat) (a : ℚ) (rid : Option Nat) (ty : String)
    (h : LedgerInv st) : LedgerInv (walletCredit st u a rid ty).1 := by
  unfold walletCredit
  by_cases h1 : ¬ (0 < a)
  · rw [if_pos h1]; exact h
  rw [if_neg h1]
  push_neg at h1
  by_cases h2 : ¬ (ty ∈ ["bet_win", "bet_refund", "bonus", "transfer_in"])
  · rw [if_pos h2]; exact h
  rw [if_neg h2]
  cases hw : getWalletByUserId st u with
  | none => exact h
  | some w =>
    dsimp only
    have hi := h.1 w (getWalletByUserId_mem hw)
    exact ledgerInv_processTransaction h hi.1 (by linarith [hi.2])

theorem ledgerInv_debit (st : LedgerState) (u : Nat) (a : ℚ) (lid : Option Nat)
    (rid : Option Nat) (ty : String) (h : LedgerInv st)
    (hsafe : ∀ w, getWalletByUserId st u = some w →
      a ≤ w.balance - max 0 (w.lockedBalance - lockReleaseAmount st lid)) :
    LedgerInv (walletDebit st u a lid rid ty).1 := by
  unfold walletDebit
  by_cases h1 : ¬ (0 < a)
  · rw [if_pos h1]; exact h
  rw [if_neg h1]
  push_neg at h1
  cases hw : getWalletByUserId st u with
  | none => exact h
  | some w =>
    dsimp only
    have hi := h.1 w (getWalletByUserId_mem hw)
    have hs := hsafe w hw
    have hmax : max 0 w.lockedBalance = w.lockedBalance := max_eq_right hi.1
    cases lid with
    | none =>
      simp only [lockReleaseAmount, sub_zero, hmax] at hs
      simp only [Option.map, Option.getD]
      by_cases h6 : a > w.balance
      · rw [if_pos h6]; exact h
      · rw [if_neg h6]
        exact ledgerInv_processTransaction h hi.1 (by linarith)
    | some lockN =>
      dsimp only
      cases hl : getLockById st lockN with
      | none =>
        simp only [lockReleaseAmount, hl, sub_zero, hmax] at hs
        simp only [Option.map, Option.getD]
        by_cases h6 : a > w.balance
        · rw [if_pos h6]; exact h
        · rw [if_neg h6]
          exact ledgerInv_processTransaction h hi.1 (by linarith)
      | some l =>
        dsimp only
        by_cases hact : (l.status == "active") = true
        · rw [if_pos hact]
          simp only [lockReleaseAmount, hl, if_pos hact] at hs
          have hla := h.2 l (getLockById_mem hl)
          have hinv1 : LedgerInv (saveLock
              (saveWallet st { w with lockedBalance := max 0 (w.lockedBalance - l.amount) })
              { l with status := "converted" }) := by
            refine ledgerInv_saveLock ?_ (by dsimp only; exact hla)
            exact ledgerInv_saveWallet h (by dsimp only; exact le_max_left 0 _)
              (by dsimp only; exact max_le (by linarith [hi.1, hi.2]) (by linarith [hi.2]))
          simp only [Option.map, Option.getD]
          by_cases h6 : a > w.balance
          · rw [if_pos h6]; exact hinv1
          · rw [if_neg h6]
            exact ledgerInv_processTransaction hinv1 (le_max_left 0 _) (by linarith)
        · rw [if_neg hact]
          simp only [lockReleaseAmount, hl, if_neg hact, sub_zero, hmax] at hs
          simp only [Option.map, Option.getD]
          by_cases h6 : a > w.balance
          · rw [if_pos h6]; exact h
          · rw [if_neg h6]
            exact ledgerInv_processTransaction h hi.1 (by linarith)

theorem ledgerInv_step (st : LedgerState) (op : WalletOp) (h : LedgerInv st)
    (hsafe : debitSafeB st op = true) : LedgerInv (walletStep st op) := by
  cases op with
  | create u c => exact ledgerInv_create st u c h
  | deposit u a => exact ledgerInv_deposit st u a h
  | withdraw u a => exact ledgerInv_withdraw st u a h
  | lock u a => exact ledgerInv_lock st u a h
  | unlock lid => exact ledgerInv_unlock st lid h
  | credit u a ty => exact ledgerInv_credit st u a none ty h
  | debit u a lid =>
    refine ledgerInv_debit st u a lid none "bet_stake" h ?_
    intro w hw
    rw [debitSafeB, hw] at hsafe
    exact of_decide_eq_true hsafe

/-- C1 (amended): the wallet invariant 0 ≤ lockedBalance ≤ balance holds in
every state reachable from an invariant-satisfying state by a sequence of
WalletLedger operations in which every Debit is bounded by what the wallet
can cover beyond its remaining locks, that is amount ≤ balance − the
lockedBalance left after the conversion of the named lock (safeTraceB).
The unrestricted claim fails because the source checks a Debit against the
raw balance only. -/
theorem c1_wallet_invariant_bounded_debits (st : LedgerState) (ops : List WalletOp)
    (hinv : LedgerInv st) (hsafe : safeTraceB st ops = true) :
    WalletInv (runOps st ops) := by
  suffices h : LedgerInv (runOps st ops) from h.1
  induction ops generalizing st with
  | nil => exact hinv
  | cons op rest ih =>
    rw [safeTraceB, Bool.and_eq_true] at hsafe
    exact ih (walletStep st op) (ledgerInv_step st op hinv hsafe.1) hsafe.2

/-- C1 witness: the spec's lock and debit round trip (fund 100, lock 50,
debit 50 converting the lock) is a bounded trace from the empty state, and
the invariant holds after it. -/
theorem c1_wallet_invariant_witness :
    safeTraceB initLedger c1SafeOps = true ∧ WalletInv (runOps initLedger c1SafeOps) := by
  have hs : safeTraceB initLedger c1SafeOps = true := by
    norm_num [c1SafeOps, safeTraceB, debitSafeB, lockReleaseAmount, walletStep, walletCreate,
      walletDeposit, walletLock, walletDebit, initLedger, getWalletByUserId, getLockById,
      addWallet, addLock, saveLock, processTransaction, saveWallet, addTxn]
  exact ⟨hs, c1_wallet_invariant_bounded_debits initLedger c1SafeOps (by decide) hs⟩

/-- C1 counterexample: the request sequence fund 100, lock 10, lock 90,
debit 100 converting the 10 lock succeeds step by step, yet it leaves the
wallet at balance 0 with lockedBalance 90, so the claimed invariant fails
in a reachable state. -/
theorem c1_wallet_invariant_counterexample : ¬ WalletInv (runOps initLedger c1BreakOps) := by
  norm_num [c1BreakOps, runOps, walletStep, walletCreate, walletDeposit, walletLock, walletDebit,
    initLedger, getWalletByUserId, getLockById, addWallet, addLock, saveLock, processTransaction,
    saveWallet, addTxn, WalletInv]

/-- C2: voidMarket refunds nothing and leaves every bet and the whole
ledger untouched, for every state and market: its getBetsForMarket source
is a stub that returns the empty list, so the loop that should void
selections and refund stakes never runs. -/
theorem c2_voidMarket_refunds_nothing (st : SysState) (marketId : Nat) (reason : String) :
    (voidMarket st marketId reason).2.refundedCount = 0 ∧
    (voidMarket st marketId reason).2.betsProcessed = 0 ∧
    (voidMarket st marketId reason).1.bets = st.bets ∧
    (voidMarket st marketId reason).1.ledger = st.ledger :=
  ⟨rfl, rfl, rfl, rfl⟩

/-- C9: odds.validate is valid exactly when the selection exists in the
odds store, its status is active, and the relative difference between the
current and expected odds is within the tolerance.  Concretely, with
expectedOdds 2.50 and tolerance 0.05, a current quote of 2.60 validates
(difference 4 percent) while 2.70 fails with reason Odds have changed and
difference rendered as 8.00 percent; and a selection whose status is not
active always fails with the suspension reason. -/
theorem c9_validateOdds_spec (os : List (Nat × OddsData)) (sel : Nat) (e t : ℚ) :
    ((validateOdds os sel e t).valid = true ↔
      ∃ d, lookupOdds os sel = some d ∧ d.status = "active" ∧ |d.odds - e| / e ≤ t)
    ∧ validateOdds oddsQuote260 1 (5/2) (1/20) = ⟨true, none, none, some (13/5), none⟩
    ∧ validateOdds oddsQuote270 1 (5/2) (1/20) =
        ⟨false, some "Odds have changed", some (5/2), some (27/10), some "8.00%"⟩
    ∧ (∀ d, lookupOdds os sel = some d → d.status ≠ "active" →
        validateOdds os sel e t = ⟨false, some "Odds are suspended", none, none, none⟩) := by
  refine ⟨?_, ?_, ?_, ?_⟩
  · unfold validateOdds
    cases hd : lookupOdds os sel with
    | none => simp
    | some d =>
      dsimp only
      by_cases hs : (d.status != "active") = true
      · rw [if_pos hs]
        simp only [bne_iff_ne, ne_eq] at hs
        simp [hs]
      · rw [if_neg hs]
        simp only [bne_iff_ne, ne_eq, not_not] at hs
        by_cases ht : |d.odds - e| / e > t
        · rw [if_pos ht]
          simp [hs, not_le.mpr ht]
        · rw [if_neg ht]
          push_neg at ht
          simp [hs, ht]
  · unfold validateOdds lookupOdds oddsQuote260
    simp only [List.find?, beq_self_eq_true, Option.map]
    rw [show |(13:ℚ)/5 - 5/2| / (5/2) = 1/25 by
      rw [show (13:ℚ)/5 - 5/2 = 1/10 by norm_num, abs_of_nonneg (by norm_num : (0:ℚ) ≤ 1/10)]
      norm_num]
    norm_num
  · unfold validateOdds lookupOdds oddsQuote270
    simp only [List.find?, beq_self_eq_true, Option.map]
    rw [show |(27:ℚ)/10 - 5/2| / (5/2) = 2/25 by
      rw [show (27:ℚ)/10 - 5/2 = 1/5 by norm_num, abs_of_nonneg (by norm_num : (0:ℚ) ≤ 1/5)]
      norm_num]
    have hfix : toFixed2 (8 : ℚ) = "8.00" := by
      unfold toFixed2
      rw [show ((8:ℚ) * 100 + 1/2) = 1601/2 by norm_num,
        show Int.floor ((1601:ℚ)/2) = 800 by norm_num]
      decide
    norm_num [hfix]
    try decide
  · intro d hd hs
    unfold validateOdds
    rw [hd]
    dsimp only
    rw [if_pos (by simpa [bne_iff_ne] using hs)]

/-! ## Keyed-store update lemmas -/

theorem find?_saveWallet_list (ws : List Wallet) (u : Nat) (c : String) (w w1 : Wallet)
    (h : ws.find? (fun x => x.userId == u && x.currency == c) = some w)
    (hu : w1.userId = w.userId) (hc : w1.currency = w.currency) :
    (ws.map (fun x => if x.userId == w1.userId && x.currency == w1.currency then w1 else x)).find?
      (fun x => x.userId == u && x.currency == c) = some w1 := by
  have hkey := List.find?_some h
  rw [Bool.and_eq_true, beq_iff_eq, beq_iff_eq] at hkey
  induction ws with
  | nil => simp at h
  | cons x xs ih =>
    by_cases hx : (x.userId == u && x.currency == c) = true
    · have hx1 : (x.userId == w1.userId && x.currency == w1.currency) = true := by
        rw [Bool.and_eq_true, beq_iff_eq, beq_iff_eq] at hx ⊢
        exact ⟨hx.1.trans (hu.trans hkey.1).symm, hx.2.trans (hc.trans hkey.2).symm⟩
      have hp : (w1.userId == u && w1.currency == c) = true := by
        rw [Bool.and_eq_true, beq_iff_eq, beq_iff_eq]
        exact ⟨hu.trans hkey.1, hc.trans hkey.2⟩
      simp only [List.map_cons, if_pos hx1, List.find?, hp]
    · have hxf : (x.userId == u && x.currency == c) = false := by
        rwa [Bool.not_eq_true] at hx
      have hx1f : (x.userId == w1.userId && x.currency == w1.currency) = false := by
        rw [Bool.eq_false_iff]
        intro hcon
        apply hx
        rw [Bool.and_eq_true, beq_iff_eq, beq_iff_eq] at hcon ⊢
        exact ⟨hcon.1.trans (hu.trans hkey.1), hcon.2.trans (hc.trans hkey.2)⟩
      have hnot : ¬ ((x.userId == w1.userId && x.currency == w1.currency) = true) := by
        rw [hx1f]
        exact Bool.false_ne_true
      simp only [List.find?, hxf] at h
      simp only [List.map_cons, if_neg hnot, List.find?, hxf]
      exact ih h

theorem getWalletByUserId_saveWallet {st : LedgerState} {u : Nat} {w w1 : Wallet}
    (hw : getWalletByUserId st u = some w) (hu : w1.userId = w.userId)
    (hc : w1.currency = w.currency) :
    getWalletByUserId (saveWallet st w1) u = some w1 :=
  find?_saveWallet_list st.wallets u "USD" w w1 hw hu hc

theorem getBetById_id {bets : List Bet} {betId : Nat} {b : Bet}
    (h : getBetById bets betId = some b) : b.id = betId := by
  have := List.find?_some h
  rwa [beq_iff_eq] at this

theorem find?_saveBet_list (bets : List Bet) (betId : Nat) (b b1 : Bet)
    (h : bets.find? (fun x => x.id == betId) = some b) (hb1 : b1.id = betId) :
    (bets.map (fun x => if x.id == b1.id then b1 else x)).find? (fun x => x.id == betId) =
      some b1 := by
  induction bets with
  | nil => simp at h
  | cons x xs ih =>
    by_cases hx : (x.id == betId) = true
    · have hx1 : (x.id == b1.id) = true := by
        rw [beq_iff_eq] at hx ⊢
        rw [hb1]
        exact hx
      have hp : (b1.id == betId) = true := by
        rw [beq_iff_eq]
        exact hb1
      simp only [List.map_cons, if_pos hx1, List.find?, hp]
    · have hxf : (x.id == betId) = false := by
        rwa [Bool.not_eq_true] at hx
      have hx1f : (x.id == b1.id) = false := by
        rw [Bool.eq_false_iff]
        intro hcon
        apply hx
        rw [beq_iff_eq] at hcon ⊢
        exact hcon.trans hb1
      have hnot : ¬ ((x.id == b1.id) = true) := by
        rw [hx1f]
        exact Bool.false_ne_true
      simp only [List.find?, hxf] at h
      simp only [List.map_cons, if_neg hnot, List.find?, hxf]
      exact ih h

theorem getBetById_saveBetList {bets : List Bet} {betId : Nat} {b b1 : Bet}
    (h : getBetById bets betId = some b) (hid : b1.id = b.id) :
    getBetById (saveBetList bets b1) betId = some b1 := by
  have hbid : b.id = betId := getBetById_id h
  unfold saveBetList
  rw [if_pos (by
    rw [List.any_eq_true]
    exact ⟨b, List.mem_of_find?_eq_some h, by rw [beq_iff_eq]; exact hid.symm⟩)]
  exact find?_saveBet_list bets betId b b1 h (hid.trans hbid)

theorem walletCredit_ok {st : LedgerState} {u : Nat} {a : ℚ} {rid : Option Nat} {ty : String}
    {w : Wallet} (hw : getWalletByUserId st u = some w) (ha : 0 < a)
    (hty : ty ∈ ["bet_win", "bet_refund", "bonus", "transfer_in"]) (hb : 0 ≤ w.balance + a) :
    walletCredit st u a rid ty =
      (addTxn (saveWallet st { w with balance := w.balance + a }) ⟨w.userId, ty, a, rid⟩,
        .ok ⟨w.userId, ty, a, rid⟩) := by
  unfold walletCredit
  rw [if_neg (not_not_intro ha), if_neg (not_not_intro hty), hw]
  dsimp only
  unfold processTransaction
  rw [if_neg (by push_neg; exact hb)]

/-! ## Behaviour of the settle action, branch by branch -/

theorem betSettle_already {st : SysState} {betId : Nat} {b : Bet} (result : String) (sa : Option ℚ)
    (henum : result ∈ ["won", "lost", "void", "partial"])
    (hb : getBetById st.bets betId = some b) (hst : b.status ≠ "open") :
    betSettle st betId result sa = (st, .error .betAlreadySettled) := by
  unfold betSettle
  rw [if_neg (not_not_intro henum), hb]
  dsimp only
  rw [if_pos (bne_iff_ne.mpr hst)]

theorem betSettle_won_eq {st : SysState} {betId : Nat} {b : Bet} {w : Wallet} (sa : Option ℚ)
    (hb : getBetById st.bets betId = some b) (hopen : b.status = "open")
    (hw : getWalletByUserId st.ledger b.userId = some w)
    (ha : 0 < wonAmount b sa) (hbal : 0 ≤ w.balance) :
    betSettle st betId "won" sa =
      ({ st with
          ledger := addTxn (saveWallet st.ledger { w with balance := w.balance + wonAmount b sa })
            ⟨w.userId, "bet_win", wonAmount b sa, some b.id⟩,
          bets := saveBetList st.bets
            { b with status := "won", settledAmount := some (wonAmount b sa) } },
        .ok { b with status := "won", settledAmount := some (wonAmount b sa) }) := by
  have hwon : (("won" : String) == "won") = true := by decide
  unfold betSettle
  rw [if_neg (not_not_intro (by simp : ("won" : String) ∈ ["won", "lost", "void", "partial"])), hb]
  dsimp only
  rw [if_neg (by simp [hopen])]
  simp only [if_pos hwon]
  rw [walletCredit_ok hw ha (by simp) (by linarith)]

theorem betSettle_void_eq {st : SysState} {betId : Nat} {b : Bet} {w : Wallet} (sa : Option ℚ)
    (hb : getBetById st.bets betId = some b) (hopen : b.status = "open")
    (hw : getWalletByUserId st.ledger b.userId = some w)
    (ha : 0 < b.stake) (hbal : 0 ≤ w.balance) :
    betSettle st betId "void" sa =
      ({ st with
          ledger := addTxn (saveWallet st.ledger { w with balance := w.balance + b.stake })
            ⟨w.userId, "bet_refund", b.stake, some b.id⟩,
          bets := saveBetList st.bets { b with status := "void", settledAmount := some b.stake } },
        .ok { b with status := "void", settledAmount := some b.stake }) := by
  unfold betSettle
  rw [if_neg (not_not_intro (by simp : ("void" : String) ∈ ["won", "lost", "void", "partial"])), hb]
  dsimp only
  rw [if_neg (by simp [hopen])]
  simp only [show (("void" : String) == "won") = false by decide,
    show (("void" : String) == "lost") = false by decide,
    show (("void" : String) == "void") = true by decide, Bool.false_eq_true,
    if_false, if_true]
  rw [walletCredit_ok hw ha (by simp) (by linarith)]

theorem betSettle_lost_eq {st : SysState} {betId : Nat} {b : Bet} (sa : Option ℚ)
    (hb : getBetById st.bets betId = some b) (hopen : b.status = "open") :
    betSettle st betId "lost" sa =
      ({ st with bets := saveBetList st.bets { b with status := "lost", settledAmount := some 0 } },
        .ok { b with status := "lost", settledAmount := some 0 }) := by
  unfold betSettle
  rw [if_neg (not_not_intro (by simp : ("lost" : String) ∈ ["won", "lost", "void", "partial"])), hb]
  dsimp only
  rw [if_neg (by simp [hopen])]
  simp only [show (("lost" : String) == "won") = false by decide,
    show (("lost" : String) == "lost") = true by decide,
    show (("lost" : String) == "void") = false by decide, Bool.false_eq_true,
    if_false, if_true]

theorem betSettle_partial_eq {st : SysState} {betId : Nat} {b : Bet} (sa : Option ℚ)
    (hb : getBetById st.bets betId = some b) (hopen : b.status = "open") :
    betSettle st betId "partial" sa =
      ({ st with bets := saveBetList st.bets { b with status := "void", settledAmount := some 0 } },
        .ok { b with status := "void", settledAmount := some 0 }) := by
  unfold betSettle
  rw [if_neg (not_not_intro
    (by simp : ("partial" : String) ∈ ["won", "lost", "void", "partial"])), hb]
  dsimp only
  rw [if_neg (by simp [hopen])]
  simp only [show (("partial" : String) == "won") = false by decide,
    show (("partial" : String) == "lost") = false by decide,
    show (("partial" : String) == "void") = false by decide, Bool.false_eq_true,
    if_false, if_true]

theorem walletBalance_addTxn_saveWallet {st : LedgerState} {u : Nat} {w w1 : Wallet} {t : Txn}
    (hw : getWalletByUserId st u = some w) (hu : w1.userId = w.userId)
    (hc : w1.currency = w.currency) :
    walletBalance (addTxn (saveWallet st w1) t) u = some w1.balance := by
  unfold walletBalance
  rw [show getWalletByUserId (addTxn (saveWallet st w1) t) u =
      getWalletByUserId (saveWallet st w1) u from rfl,
    getWalletByUserId_saveWallet hw hu hc]
  rfl

theorem betWinCredits_addTxn_saveWallet (st : LedgerState) (w1 : Wallet) (u : Nat) (a : ℚ)
    (betId : Nat) :
    betWinCredits (addTxn (saveWallet st w1) ⟨u, "bet_win", a, some betId⟩) betId =
      betWinCredits st betId + 1 := by
  unfold betWinCredits
  rw [show (addTxn (saveWallet st w1) ⟨u, "bet_win", a, some betId⟩).txns =
      (⟨u, "bet_win", a, some betId⟩ : Txn) :: st.txns from rfl]
  rw [List.filter_cons, if_pos (by simp)]
  simp

theorem betRefundCredits_addTxn_saveWallet (st : LedgerState) (w1 : Wallet) (u : Nat) (a : ℚ)
    (betId : Nat) :
    betRefundCredits (addTxn (saveWallet st w1) ⟨u, "bet_refund", a, some betId⟩) betId =
      betRefundCredits st betId + 1 := by
  unfold betRefundCredits
  rw [show (addTxn (saveWallet st w1) ⟨u, "bet_refund", a, some betId⟩).txns =
      (⟨u, "bet_refund", a, some betId⟩ : Txn) :: st.txns from rfl]
  rw [List.filter_cons, if_pos (by simp)]
  simp

/-- C7: settle is guarded by status open.  For every open bet with a wallet
for its user, settle(betId, won, 100) succeeds, credits exactly 100 to the
wallet, records exactly one new bet_win transaction for the bet, and a
second identical call fails BET_ALREADY_SETTLED leaving the state it
received unchanged. -/
theorem c7_settle_idempotent (st : SysState) (betId : Nat) (b : Bet) (w : Wallet)
    (hb : getBetById st.bets betId = some b) (hopen : b.status = "open")
    (hw : getWalletByUserId st.ledger b.userId = some w) (hbal : 0 ≤ w.balance) :
    ∃ st1 b1, betSettle st betId "won" (some 100) = (st1, .ok b1) ∧
      b1.status = "won" ∧ b1.settledAmount = some 100 ∧
      walletBalance st1.ledger b.userId = some (w.balance + 100) ∧
      betWinCredits st1.ledger betId = betWinCredits st.ledger betId + 1 ∧
      betSettle st1 betId "won" (some 100) = (st1, .error .betAlreadySettled) := by
  have hamt : wonAmount b (some 100) = 100 := by
    unfold wonAmount
    dsimp only
    rw [if_neg (by norm_num)]
  have h1 := betSettle_won_eq (some 100) hb hopen hw (by rw [hamt]; norm_num) hbal
  rw [hamt] at h1
  refine ⟨_, _, h1, rfl, rfl, ?_, ?_, ?_⟩
  · exact walletBalance_addTxn_saveWallet hw rfl rfl
  · rw [getBetById_id hb]
    exact betWinCredits_addTxn_saveWallet st.ledger _ w.userId 100 betId
  · exact betSettle_already "won" (some 100) (by simp) (getBetById_saveBetList hb rfl) (by simp)

/-- C7 witness: the double settle on a concrete open bet with a
zero-balance wallet. -/
theorem c7_settle_idempotent_witness :
    ∃ st1 b1, betSettle demoSys 5 "won" (some 100) = (st1, .ok b1) ∧
      b1.status = "won" ∧ b1.settledAmount = some 100 ∧
      walletBalance st1.ledger demoBet.userId = some ((0:ℚ) + 100) ∧
      betWinCredits st1.ledger 5 = betWinCredits demoSys.ledger 5 + 1 ∧
      betSettle st1 5 "won" (some 100) = (st1, .error .betAlreadySettled) :=
  c7_settle_idempotent demoSys 5 demoBet ⟨1, "USD", 0, 0, "active"⟩ rfl rfl rfl (by norm_num)

/-- C8 (amended): on an open bet, settle won with a nonzero settledAmount
credits exactly that amount as bet_win; with settledAmount 0 or absent
(both falsy to the JavaScript or-fallback) it credits potentialWin; void
credits the stake as bet_refund and records settledAmount = stake; lost
credits nothing and leaves the ledger untouched. -/
theorem c8_settle_amount_rules (st : SysState) (betId : Nat) (b : Bet) (w : Wallet)
    (hb : getBetById st.bets betId = some b) (hopen : b.status = "open")
    (hw : getWalletByUserId st.ledger b.userId = some w) (hbal : 0 ≤ w.balance) :
    (∀ a : ℚ, 0 < a →
      ∃ st1 b1, betSettle st betId "won" (some a) = (st1, .ok b1) ∧
        b1.settledAmount = some a ∧
        walletBalance st1.ledger b.userId = some (w.balance + a) ∧
        betWinCredits st1.ledger betId = betWinCredits st.ledger betId + 1) ∧
    (0 < b.potentialWin →
      ∃ st1 b1, betSettle st betId "won" (some 0) = (st1, .ok b1) ∧
        b1.settledAmount = some b.potentialWin ∧
        walletBalance st1.ledger b.userId = some (w.balance + b.potentialWin)) ∧
    (0 < b.potentialWin →
      ∃ st1 b1, betSettle st betId "won" none = (st1, .ok b1) ∧
        b1.settledAmount = some b.potentialWin ∧
        walletBalance st1.ledger b.userId = some (w.balance + b.potentialWin)) ∧
    (0 < b.stake → ∀ sa,
      ∃ st1 b1, betSettle st betId "void" sa = (st1, .ok b1) ∧
        b1.settledAmount = some b.stake ∧
        walletBalance st1.ledger b.userId = some (w.balance + b.stake) ∧
        betRefundCredits st1.ledger betId = betRefundCredits st.ledger betId + 1) ∧
    (∀ sa, ∃ st1 b1, betSettle st betId "lost" sa = (st1, .ok b1) ∧
        b1.settledAmount = some 0 ∧ st1.ledger = st.ledger) := by
  refine ⟨?_, ?_, ?_, ?_, ?_⟩
  · intro a ha
    have hamt : wonAmount b (some a) = a := by
      unfold wonAmount
      dsimp only
      rw [if_neg (by linarith)]
    have h1 := betSettle_won_eq (some a) hb hopen hw (by rw [hamt]; exact ha) hbal
    rw [hamt] at h1
    refine ⟨_, _, h1, rfl, ?_, ?_⟩
    · exact walletBalance_addTxn_saveWallet hw rfl rfl
    · rw [getBetById_id hb]
      exact betWinCredits_addTxn_saveWallet st.ledger _ w.userId a betId
  · intro hpw
    have hamt : wonAmount b (some 0) = b.potentialWin := by
      unfold wonAmount
      dsimp only
      rw [if_pos rfl]
    have h1 := betSettle_won_eq (some 0) hb hopen hw (by rw [hamt]; exact hpw) hbal
    rw [hamt] at h1
    exact ⟨_, _, h1, rfl, walletBalance_addTxn_saveWallet hw rfl rfl⟩
  · intro hpw
    have hamt : wonAmount b none = b.potentialWin := rfl
    have h1 := betSettle_won_eq none hb hopen hw (by rw [hamt]; exact hpw) hbal
    rw [hamt] at h1
    exact ⟨_, _, h1, rfl, walletBalance_addTxn_saveWallet hw rfl rfl⟩
  · intro hstake sa
    have h1 := betSettle_void_eq sa hb hopen hw hstake hbal
    refine ⟨_, _, h1, rfl, ?_, ?_⟩
    · exact walletBalance_addTxn_saveWallet hw rfl rfl
    · rw [getBetById_id hb]
      exact betRefundCredits_addTxn_saveWallet st.ledger _ w.userId b.stake betId
  · intro sa
    exact ⟨_, _, betSettle_lost_eq sa hb hopen, rfl, rfl⟩

/-- C8 witness: settle won with settledAmount 7 on the concrete open bet
credits exactly 7. -/
theorem c8_settle_amount_rules_witness :
    ∃ st1 b1, betSettle demoSys 5 "won" (some 7) = (st1, .ok b1) ∧
      b1.settledAmount = some 7 ∧
      walletBalance st1.ledger demoBet.userId = some ((0:ℚ) + 7) ∧
      betWinCredits st1.ledger 5 = betWinCredits demoSys.ledger 5 + 1 :=
  (c8_settle_amount_rules demoSys 5 demoBet ⟨1, "USD", 0, 0, "active"⟩ rfl rfl rfl
    (by norm_num)).1 7 (by norm_num)

/-- C8 counterexample: settle won with the provided settledAmount 0 on an
open bet with potentialWin 20 credits 20, not 0, because the source uses
the JavaScript or-operator, for which 0 is falsy. -/
theorem c8_settledAmount_zero_counterexample :
    ∃ st1 b1, betSettle demoSys 5 "won" (some 0) = (st1, .ok b1) ∧
      b1.settledAmount = some 20 ∧ walletBalance st1.ledger 1 = some 20 ∧ (20:ℚ) ≠ 0 := by
  have hamt : wonAmount demoBet (some 0) = 20 := by
    unfold wonAmount
    dsimp only
    rw [if_pos rfl]
    rfl
  have h1 := @betSettle_won_eq demoSys 5 demoBet ⟨1, "USD", 0, 0, "active"⟩ (some 0) rfl rfl rfl
    (by rw [hamt]; norm_num) (by norm_num)
  rw [hamt] at h1
  refine ⟨_, _, h1, rfl, ?_, by norm_num⟩
  norm_num [walletBalance, getWalletByUserId, addTxn, saveWallet, demoSys, oneWalletLedger,
    List.find?]

/-- C10 (amended): settle accepts the undocumented result value partial on
an open bet, and it sets the bet status to void, but it records
settledAmount 0, ignores the settledAmount argument and credits nothing:
the ledger is untouched, so partial behaves financially like lost, not
like void. -/
theorem c10_settle_partial_voids_without_refund (st : SysState) (betId : Nat) (b : Bet)
    (hb : getBetById st.bets betId = some b) (hopen : b.status = "open") (sa : Option ℚ) :
    ∃ b1, betSettle st betId "partial" sa =
        ({ st with bets := saveBetList st.bets b1 }, .ok b1) ∧
      b1.status = "void" ∧ b1.settledAmount = some 0 ∧
      (betSettle st betId "partial" sa).1.ledger = st.ledger := by
  refine ⟨_, betSettle_partial_eq sa hb hopen, rfl, rfl, ?_⟩
  rw [betSettle_partial_eq sa hb hopen]

/-- C10 witness: the partial settle of the concrete open bet. -/
theorem c10_settle_partial_witness :
    ∃ b1, betSettle demoSys 5 "partial" (some 5) =
        ({ demoSys with bets := saveBetList demoSys.bets b1 }, .ok b1) ∧
      b1.status = "void" ∧ b1.settledAmount = some 0 ∧
      (betSettle demoSys 5 "partial" (some 5)).1.ledger = demoSys.ledger :=
  c10_settle_partial_voids_without_refund demoSys 5 demoBet rfl rfl (some 5)

/-- C10 counterexample: on a concrete open bet with stake 10, settle
partial records settledAmount 0 (not the stake), leaves the ledger
untouched (no refund) and therefore differs from settle void. -/
theorem c10_settle_partial_counterexample :
    ∃ st1 b1, betSettle demoSys 5 "partial" (some 5) = (st1, .ok b1) ∧
      b1.settledAmount = some 0 ∧ some (0:ℚ) ≠ some demoBet.stake ∧
      st1.ledger = demoSys.ledger ∧
      betSettle demoSys 5 "partial" (some 5) ≠ betSettle demoSys 5 "void" (some 5) := by
  have h1 := @betSettle_partial_eq demoSys 5 demoBet (some 5) rfl rfl
  have h2 := @betSettle_void_eq demoSys 5 demoBet ⟨1, "USD", 0, 0, "active"⟩ (some 5) rfl rfl rfl
    (by norm_num [demoBet]) (by norm_num)
  refine ⟨_, _, h1, rfl, by norm_num [demoBet], rfl, ?_⟩
  intro heq
  rw [h1, h2] at heq
  have hlen := congrArg (fun p => p.1.ledger.txns.length) heq
  simp [demoSys, oneWalletLedger, addTxn] at hlen

/-- C3 (amended): for every successfully placed accumulator, totalOdds is
the two-decimal rounding of the product of the oddsAtPlacement of its
selections and potentialWin is the two-decimal rounding of stake times
totalOdds; for every successfully placed single bet, however, totalOdds is
the raw product of the oddsAtPlacement of its selections and potentialWin
is exactly stake times totalOdds, with no rounding applied anywhere. -/
theorem c3_rounding_rules :
    (∀ os st u e m sel odds stake bid f st1 bet,
        place os st u e m sel odds stake bid f = (st1, Except.ok bet) →
        bet.totalOdds = prodOdds bet.selections ∧
        bet.potentialWin = bet.stake * bet.totalOdds) ∧
    (∀ os st u sels stake bid f st1 bet,
        placeAccumulator os st u sels stake bid f = (st1, Except.ok bet) →
        bet.totalOdds = jsRound2 (prodOdds bet.selections) ∧
        bet.potentialWin = jsRound2 (bet.stake * bet.totalOdds)) := by
  constructor
  · intro os st u e m sel odds stake bid f st1 bet h
    simp only [place] at h
    repeat' split at h
    all_goals try (exfalso; have h2 := congrArg Prod.snd h; simp at h2; done)
    have h2 := congrArg Prod.snd h
    dsimp only at h2
    rw [Except.ok.injEq] at h2
    subst h2
    refine ⟨?_, rfl⟩
    simp [prodOdds]
  · intro os st u sels stake bid f st1 bet h
    simp only [placeAccumulator] at h
    repeat' split at h
    all_goals try (exfalso; have h2 := congrArg Prod.snd h; simp at h2; done)
    have h2 := congrArg Prod.snd h
    dsimp only at h2
    rw [Except.ok.injEq] at h2
    subst h2
    refine ⟨?_, rfl⟩
    simp [prodOdds, List.foldl_map]

/-- C3 counterexample: a successfully placed single bet with stake 0.10 at
validated current odds 3.33 carries potentialWin 0.333, which differs from
round(stake × totalOdds, 2) = 0.33: the single-bet path never rounds. -/
theorem c3_single_not_rounded_counterexample :
    (place oddsStore333 (emptyBetsState 100) 1 100 200 11 (333/100) (1/10) 9 id).2 =
      .ok c3Bet ∧
    c3Bet.potentialWin ≠ jsRound2 (c3Bet.stake * c3Bet.totalOdds) := by
  constructor
  · norm_num [place, validateOdds, lookupOdds, oddsStore333, emptyBetsState, oneWalletLedger,
      walletLock, walletDebit, getWalletByUserId, getLockById, saveWallet, saveLock, addLock,
      addTxn, processTransaction, saveBetList, List.find?, c3Bet, abs]
  · norm_num [c3Bet, jsRound2]

/-- C4: the settlement cascade writes the raw result strings (winner,
loser, void, push) onto bet selections, but calculateCashoutValue filters
for the literal statuses won and lost, which the cascade never produces.
After the cascade resolves the first leg of a 10-stake accumulator (legs
at odds 2 and 3) as winner, the bet is still open, the code values the
cash-out at round(10 × 1 × 0.9, 2) = 9 — ignoring the won leg — while the
claimed formula round(stake × Π odds over won legs × 0.9, 2) gives 18. -/
theorem c4_cashout_ignores_cascade_statuses :
    getBetById (handleSelectionSettled accSys 11 "winner").bets 7 = some accBetAfterWinner ∧
    accBetAfterWinner.status = "open" ∧
    calculateCashoutValue accBetAfterWinner = 9 ∧
    specCashoutValue accBetAfterWinner = 18 ∧
    calculateCashoutValue accBetAfterWinner ≠ specCashoutValue accBetAfterWinner := by
  have h1 : calculateCashoutValue accBetAfterWinner = 9 := by
    simp [calculateCashoutValue, accBetAfterWinner, prodOdds, List.filter]
    norm_num [jsRound2]
  have h2 : specCashoutValue accBetAfterWinner = 18 := by
    simp [specCashoutValue, accBetAfterWinner, prodOdds, List.filter, List.any]
    norm_num [jsRound2]
  refine ⟨?_, rfl, h1, h2, ?_⟩
  · simp [handleSelectionSettled, getBetsBySelection, cascadeStep, getBetById, saveBetList,
      setFirstSelectionStatus, accSys, accBet, accBetAfterWinner, oneWalletLedger, List.filter,
      List.find?, List.any, List.foldl]
  · rw [h1, h2]
    norm_num

/-- C5 (amended): only Lock (together with deposit and withdraw) enforces
the active-status requirement, failing WALLET_INACTIVE with no state
change on a non-active wallet; Unlock, Debit and Credit perform no status
check at all and mutate frozen or closed wallets exactly as they would an
active one. -/
theorem c5_status_checks (st : LedgerState) (u : Nat) (a : ℚ) (w : Wallet)
    (hw : getWalletByUserId st u = some w) (hstatus : w.status ≠ "active") (ha : 0 < a) :
    walletLock st u a = (st, .error .walletInactive) ∧
    (1 ≤ a → a ≤ 50000 → walletDeposit st u a = (st, .error .walletInactive)) ∧
    (10 ≤ a → a ≤ 50000 → walletWithdraw st u a = (st, .error .walletInactive)) ∧
    (0 ≤ w.balance → ∀ rid, walletCredit st u a rid "bet_win" =
      (addTxn (saveWallet st { w with balance := w.balance + a }) ⟨w.userId, "bet_win", a, rid⟩,
        .ok ⟨w.userId, "bet_win", a, rid⟩)) ∧
    (a ≤ w.balance → walletDebit st u a none none "bet_stake" =
      (addTxn (saveWallet st { w with balance := w.balance + -a }) ⟨w.userId, "bet_stake", -a, none⟩,
        .ok ⟨w.userId, "bet_stake", -a, none⟩)) ∧
    (∀ lid l, getLockById st lid = some l → l.status = "active" → l.userId = u →
      walletUnlock st lid = (saveLock (saveWallet st
          { w with lockedBalance := max 0 (w.lockedBalance - l.amount) })
          { l with status := "released" }, .ok l.amount)) := by
  refine ⟨?_, ?_, ?_, ?_, ?_, ?_⟩
  · unfold walletLock
    rw [if_neg (not_not_intro ha), hw]
    dsimp only
    rw [if_pos (bne_iff_ne.mpr hstatus)]
  · intro h1 h2
    unfold walletDeposit
    rw [if_neg (not_not_intro ha), if_neg (not_lt.mpr h1), if_neg (not_lt.mpr h2), hw]
    dsimp only
    rw [if_pos (bne_iff_ne.mpr hstatus)]
  · intro h1 h2
    unfold walletWithdraw
    rw [if_neg (not_not_intro ha), if_neg (not_lt.mpr h1), if_neg (not_lt.mpr h2), hw]
    dsimp only
    rw [if_pos (bne_iff_ne.mpr hstatus)]
  · intro hbal rid
    exact walletCredit_ok hw ha (by simp) (by linarith)
  · intro hle
    unfold walletDebit
    rw [if_neg (not_not_intro ha), hw]
    dsimp only
    simp only [Option.map, Option.getD]
    rw [if_neg (not_lt.mpr hle)]
    unfold processTransaction
    rw [if_neg (by push_neg; linarith)]
  · intro lid l hl hact huid
    unfold walletUnlock
    rw [hl]
    dsimp only
    rw [if_neg (by simp [hact]), huid, hw]

/-- C5 witness: lock on the concrete frozen wallet fails WALLET_INACTIVE
with the state unchanged. -/
theorem c5_status_checks_witness :
    walletLock frozenLedger 1 5 = (frozenLedger, .error .walletInactive) :=
  (c5_status_checks frozenLedger 1 5 ⟨1, "USD", 100, 40, "frozen"⟩ rfl
    (by simp) (by norm_num)).1

/-- C5 counterexample: on the frozen wallet (balance 100, one active lock
of 40), Credit succeeds and raises the balance to 150, Unlock succeeds,
and a Debit of 30 succeeds lowering the balance to 70 — none of them
fails WALLET_INACTIVE as the claim requires. -/
theorem c5_frozen_wallet_counterexample :
    (walletCredit frozenLedger 1 50 none "bet_win").2 ≠ .error .walletInactive ∧
    walletBalance (walletCredit frozenLedger 1 50 none "bet_win").1 1 = some 150 ∧
    (walletUnlock frozenLedger 0).2 ≠ .error .walletInactive ∧
    (walletDebit frozenLedger 1 30 none none "bet_stake").2 ≠ .error .walletInactive ∧
    walletBalance (walletDebit frozenLedger 1 30 none none "bet_stake").1 1 = some 70 := by
  refine ⟨?_, ?_, ?_, ?_, ?_⟩ <;>
    norm_num [walletCredit, walletUnlock, walletDebit, frozenLedger, getWalletByUserId,
      getLockById, processTransaction, saveWallet, saveLock, addTxn, walletBalance,
      List.find?, Option.map, Option.getD] <;>
    simp

/-- C6: when concurrent wallet traffic (modelled by drainInterfere, a
plain lockless debit landing between the saga Lock and Debit, the
interleaving the spec concurrency section allows) drains the balance, the
saga Debit fails INSUFFICIENT_FUNDS — but only after it has already
converted the lock.  The compensating Unlock the catch block issues
therefore finds the lock inactive and rejects, so the error the caller
sees is LOCK_INACTIVE, not the original debit error; the lock ends
converted (never released) and no bet is persisted. -/
theorem c6_compensation_unlock_fails :
    (walletDebit (drainInterfere (walletLock (emptyBetsState 50).ledger 1 50).1) 1 50 (some 0)
        (some 9) "bet_stake").2 = .error .insufficientFunds ∧
    (place oddsStore2 (emptyBetsState 50) 1 100 200 11 2 50 9 drainInterfere).2 =
      .error .lockInactive ∧
    (Err.lockInactive ≠ Err.insufficientFunds) ∧
    (getLockById (place oddsStore2 (emptyBetsState 50) 1 100 200 11 2 50 9 drainInterfere).1.ledger
        0).map (fun l => l.status) = some "converted" ∧
    (place oddsStore2 (emptyBetsState 50) 1 100 200 11 2 50 9 drainInterfere).1.bets = [] := by
  refine ⟨?_, ?_, by simp, ?_, ?_⟩ <;>
    norm_num [place, validateOdds, lookupOdds, oddsStore2, emptyBetsState, oneWalletLedger,
      drainInterfere, walletLock, walletDebit, walletUnlock, getWalletByUserId, getLockById,
      saveWallet, saveLock, addLock, addTxn, processTransaction, saveBetList, List.find?,
      Option.map, Option.getD, abs] <;>
    simp

end Betting
